import Mathlib

/-!
Verification of the youtube-webhook-admin-ui client library.

This file gives a shallow embedding, in Lean 4, of the parts of the
TypeScript source that the specification talks about:

* the legacy Go `sql.NullString` / `sql.NullTime` normalization
  (`isGoNullString`, `isGoNullTime`, `transformGoNullTypes` in
  `src/lib/api-client.ts`);
* query-string construction (`APIClient.buildQueryString`);
* the response handling of `APIClient.request` (JSON error branch, HTML
  error branch, 204 branch, success branch);
* base-URL normalization in the `APIClient` constructor;
* the module-level singleton (`initializeAPIClient` / `getAPIClient` /
  `isAPIClientInitialized`);
* the session-storage config store (`encode` / `decode` / `saveAPIConfig` /
  `loadAPIConfig` in `src/lib/storage.ts`), including executable models of
  `encodeURIComponent` / `decodeURIComponent` and `btoa` / `atob`;
* the auto-refresh gating of the job-monitoring pages (`Jobs.tsx`,
  `SponsorDetectionJobs.tsx`).

JavaScript values flowing through these functions are modelled by the
`Json` inductive below (JSON trees, plus `undef` for `undefined`).
Objects are association lists in insertion order, which matches the
enumeration order of `Object.entries` / `for ... in` for the
string-keyed objects produced by `JSON.parse`.
-/

namespace YTAdmin


/-- A JavaScript value as handled by the client library: JSON trees plus
`undefined`.  Numbers are modelled as integers (all numeric fields the
client serializes are integral). -/
inductive Json where
  | null : Json
  | undef : Json
  | bool (b : Bool) : Json
  | num (n : Int) : Json
  | str (s : String) : Json
  | arr (elems : List Json) : Json
  | obj (entries : List (String × Json)) : Json
  deriving Repr

/-- First value stored under key `k`, i.e. `k in o` plus `o[k]` for the
(duplicate-free) objects JavaScript can actually build. -/
def lookupKey (k : String) : List (String × Json) → Option Json
  | [] => none
  | (k', v) :: rest => if k' = k then some v else lookupKey k rest

/-- The shared shape test of `isGoNullString` / `isGoNullTime`: the looked-up
payload key is present with a string value and `Valid` is present with a
boolean value. -/
def strBoolShape (o1 o2 : Option Json) : Bool :=
  match o1, o2 with
  | some (.str _), some (.bool _) => true
  | _, _ => false

/-- Embedding of `isGoNullString`: the object has keys `String` and `Valid`
(`'String' in obj && 'Valid' in obj`) whose values are a string and a
boolean (`typeof` checks).  Note the key set is *not* required to be
exactly `{String, Valid}`. -/
def isGoNullString (j : Json) : Bool :=
  match j with
  | .obj es => strBoolShape (lookupKey "String" es) (lookupKey "Valid" es)
  | _ => false

/-- Embedding of `isGoNullTime`, same shape with key `Time` in place of
`String`. -/
def isGoNullTime (j : Json) : Bool :=
  match j with
  | .obj es => strBoolShape (lookupKey "Time" es) (lookupKey "Valid" es)
  | _ => false

/-- Embedding of `transformGoNullTypes`.  `null`/`undefined` are returned
as-is; arrays are mapped; objects are collapsed to `Valid ? String : null`
when `isGoNullString` holds (checked first), to `Valid ? Time : null` when
`isGoNullTime` holds, and otherwise rebuilt by recursing into every own
property; primitives are returned unchanged. -/
def transformGoNullTypes : Json → Json
  | .null => .null
  | .undef => .undef
  | .bool b => .bool b
  | .num n => .num n
  | .str s => .str s
  | .arr l => .arr (l.attach.map fun x => transformGoNullTypes x.1)
  | .obj es =>
    match lookupKey "String" es, lookupKey "Valid" es with
    | some (.str s), some (.bool b) => if b then .str s else .null
    | _, _ =>
      match lookupKey "Time" es, lookupKey "Valid" es with
      | some (.str t), some (.bool b) => if b then .str t else .null
      | _, _ => .obj (es.attach.map fun x => (x.1.1, transformGoNullTypes x.1.2))
decreasing_by
  all_goals obtain ⟨y, hy⟩ := x
  · have h1 := List.sizeOf_lt_of_mem hy
    simp only [Json.arr.sizeOf_spec]
    omega
  · have h1 := List.sizeOf_lt_of_mem hy
    obtain ⟨k, v⟩ := y
    simp only [Prod.mk.sizeOf_spec] at h1
    simp only [Json.obj.sizeOf_spec]
    omega

/-! ### Idempotence analysis of the legacy-null normalization (C10) -/

/-- `typeof`-style constructor classifier: is the value a string? -/
def Json.isStrCtor : Json → Bool
  | .str _ => true
  | _ => false

/-- Constructor classifier: is the value a boolean? -/
def Json.isBoolCtor : Json → Bool
  | .bool _ => true
  | _ => false

/-- Constructor classifier: is the value a (proper) object? -/
def Json.isObjCtor : Json → Bool
  | .obj _ => true
  | _ => false

/-- Restriction under which a single normalization pass is exhaustive: no
object in the tree stores another object under its `String` or `Time` key
(so a recursive pass can never newly create a collapsible shape). -/
def flatNullFields : Json → Bool
  | .null => true
  | .undef => true
  | .bool _ => true
  | .num _ => true
  | .str _ => true
  | .arr l => l.attach.all fun x => flatNullFields x.1
  | .obj es => es.attach.all fun x =>
      (!((x.1.1 == "String" || x.1.1 == "Time") && x.1.2.isObjCtor))
        && flatNullFields x.1.2
decreasing_by
  all_goals obtain ⟨y, hy⟩ := x
  · have h1 := List.sizeOf_lt_of_mem hy
    simp only [Json.arr.sizeOf_spec]
    omega
  · have h1 := List.sizeOf_lt_of_mem hy
    obtain ⟨k, v⟩ := y
    simp only [Prod.mk.sizeOf_spec] at h1
    simp only [Json.obj.sizeOf_spec]
    omega

/-! ### Query-string construction (`APIClient.buildQueryString`, C2) -/

/-- A filter field value.  The filter interfaces (`WebhookEventFilters`,
`ChannelFilters`, ...) only carry optional strings, numbers and booleans,
so the values reaching `buildQueryString` are these primitives (or
`undefined`/`null`). -/
inductive QueryVal where
  | undef : QueryVal
  | null : QueryVal
  | bool (b : Bool) : QueryVal
  | num (n : Int) : QueryVal
  | str (s : String) : QueryVal
  deriving Repr, DecidableEq

/-- JavaScript `String(value)` on the primitive filter values. -/
def jsValString : QueryVal → String
  | .undef => "undefined"
  | .null => "null"
  | .bool true => "true"
  | .bool false => "false"
  | .num n => toString n
  | .str s => s

/-- The guard `value !== undefined && value !== null && value !== ''` of
`buildQueryString`.  The comparisons are strict, so numeric `0` and
`false` are kept. -/
def keepParam : QueryVal → Bool
  | .undef => false
  | .null => false
  | .str s => s != ""
  | .bool _ => true
  | .num _ => true

/-- The key/value pairs appended to the `URLSearchParams`, in
`Object.entries` order. -/
def queryPairs (params : List (String × QueryVal)) : List (String × String) :=
  params.filterMap fun kv =>
    if keepParam kv.2 then some (kv.1, jsValString kv.2) else none

/-- Uppercase hexadecimal digit, for `n < 16`. -/
def hexDigit (n : Nat) : Char :=
  if n < 10 then Char.ofNat (48 + n) else Char.ofNat (55 + n)

/-- UTF-8 encoding of a unicode scalar value. -/
def utf8Bytes (v : Nat) : List Nat :=
  if v < 0x80 then [v]
  else if v < 0x800 then [0xC0 + v / 64, 0x80 + v % 64]
  else if v < 0x10000 then [0xE0 + v / 4096, 0x80 + v / 64 % 64, 0x80 + v % 64]
  else [0xF0 + v / 262144, 0x80 + v / 4096 % 64, 0x80 + v / 64 % 64, 0x80 + v % 64]

/-- A `%XX` escape of one byte, uppercase hex. -/
def escByte (b : Nat) : List Char := ['%', hexDigit (b / 16), hexDigit (b % 16)]

/-- Characters the `application/x-www-form-urlencoded` serializer leaves
unescaped: ASCII alphanumerics and `*`, `-`, `.`, `_`. -/
def isFormSafe (c : Char) : Bool :=
  (65 ≤ c.toNat && c.toNat ≤ 90) || (97 ≤ c.toNat && c.toNat ≤ 122)
    || (48 ≤ c.toNat && c.toNat ≤ 57)
    || c == '*' || c == '-' || c == '.' || c == '_'

/-- One character under `application/x-www-form-urlencoded` serialization
(as `URLSearchParams.toString` uses): space becomes `+`, safe characters
pass through, anything else is percent-escaped byte-wise. -/
def formEncodeChar (c : Char) : List Char :=
  if c == ' ' then ['+']
  else if isFormSafe c then [c]
  else (utf8Bytes c.toNat).flatMap escByte

/-- `application/x-www-form-urlencoded` serialization of one string. -/
def formEncode (s : String) : String := String.mk (s.data.flatMap formEncodeChar)

/-- `URLSearchParams.toString`: `k=v` pairs joined with `&`. -/
def serializeQuery (pairs : List (String × String)) : String :=
  String.intercalate "&" (pairs.map fun kv => formEncode kv.1 ++ "=" ++ formEncode kv.2)

/-- Embedding of `APIClient.buildQueryString`: serialize the kept pairs and
prepend `?` when the serialized string is nonempty. -/
def buildQueryString (params : List (String × QueryVal)) : String :=
  let queryString := serializeQuery (queryPairs params)
  if queryString = "" then "" else "?" ++ queryString

/-! ### Response handling of `APIClient.request` (C3, C4, C5) -/

/-- The error value thrown by `APIClient.request`: `APIClientError` carries
`name = 'APIClientError'`, a message, and optional status and detail. -/
structure APIClientError where
  name : String
  message : String
  status : Option Nat
  detail : Option String
  deriving Repr, DecidableEq

/-- The `APIClientError` constructor (it always sets the `name` field). -/
def mkAPIClientError (message : String) (status : Option Nat)
    (detail : Option String) : APIClientError :=
  ⟨"APIClientError", message, status, detail⟩

/-- JavaScript `String.prototype.includes`, on characters. -/
def strContainsSub (hay pat : String) : Bool :=
  (List.range (hay.data.length + 1)).any fun i => pat.data.isPrefixOf (hay.data.drop i)

/-- `contentType?.includes(pat)`: optional chaining makes a missing header
falsy. -/
def ctIncludes (ct : Option String) (pat : String) : Bool :=
  match ct with
  | none => false
  | some s => strContainsSub s pat

/-- JavaScript `String.prototype.trim` (whitespace stripped from both
ends; the bodies this code inspects are ASCII). -/
def jsTrim (s : String) : String :=
  String.mk (((s.data.dropWhile Char.isWhitespace).reverse.dropWhile
    Char.isWhitespace).reverse)

/-- JavaScript `String.prototype.startsWith`. -/
def strStarts (s pat : String) : Bool := pat.data.isPrefixOf s.data

/-- `response.ok`: status in the 2xx range. -/
def respOk (status : Nat) : Bool := decide (200 ≤ status) && decide (status ≤ 299)

/-- An HTTP response as `APIClient.request` observes it.  `jsonBody` is
what `response.json()` yields when the code parses the body as JSON (the
claims under study concern responses with well-formed JSON bodies on the
JSON branches); `bodyText` is what `response.text()` yields. -/
structure Response where
  status : Nat
  statusText : String
  contentType : Option String
  jsonBody : Json
  bodyText : String

/-- The `detail` field of a parsed error body.  The `APIError` interface
declares `detail?: string`, so a present `detail` is a string; other
shapes are modelled as absent. -/
def detailField (j : Json) : Option String :=
  match j with
  | .obj es =>
    match lookupKey "detail" es with
    | some (.str s) => some s
    | _ => none
  | _ => none

/-- The HTML-document test of the non-JSON error branch: trimmed body text
starts with `<!DOCTYPE` or `<html`, or the content type includes
`text/html`. -/
def htmlErrorLike (r : Response) : Bool :=
  strStarts (jsTrim r.bodyText) "<!DOCTYPE" || strStarts (jsTrim r.bodyText) "<html"
    || ctIncludes r.contentType "text/html"

/-- How a call into `APIClient.request` resolves. -/
inductive RequestOutcome where
  | success (body : Json) : RequestOutcome
  | noContent : RequestOutcome
  | failure (e : APIClientError) : RequestOutcome
  deriving Repr

/-- Embedding of the response handling of `APIClient.request`: the JSON
error branch (surface `errorData.detail || 'API request failed'`), the
non-JSON error branch (replace HTML-looking bodies by a generic message,
with `cleanError || 'HTTP status: statusText'` fallback), the 204
no-content branch, the non-JSON success rejection, and the success branch
(Go-null normalization of the parsed body). -/
def requestOutcome (r : Response) : RequestOutcome :=
  let isJson := ctIncludes r.contentType "application/json"
  if !(respOk r.status) then
    if isJson then
      let d := detailField r.jsonBody
      .failure (mkAPIClientError
        (match d with
         | some s => if s = "" then "API request failed" else s
         | none => "API request failed")
        (some r.status) d)
    else
      let errorText := r.bodyText
      let cleanError := if htmlErrorLike r
        then "Server error (" ++ toString r.status ++ " " ++ r.statusText
          ++ "). The API may be unavailable."
        else errorText
      .failure (mkAPIClientError
        (if cleanError = ""
         then "HTTP " ++ toString r.status ++ ": " ++ r.statusText
         else cleanError)
        (some r.status) none)
  else if r.status == 204 then
    .noContent
  else if !isJson then
    .failure (mkAPIClientError "Expected JSON response from API" (some r.status) none)
  else
    .success (transformGoNullTypes r.jsonBody)

/-! ### Base-URL normalization and the singleton accessor (C6, C7) -/

/-- The credential pair the client is configured from. -/
structure APIConfig where
  baseURL : String
  apiKey : String
  deriving Repr, DecidableEq

/-- `config.baseURL.replace(/\/$/, '')`: the regex is anchored at the end
and not global, so exactly one trailing slash is removed when present. -/
def stripTrailingSlash (s : String) : String :=
  match s.data.reverse with
  | '/' :: rest => String.mk rest.reverse
  | _ => s

/-- The `APIClient` state set up by the constructor. -/
structure APIClient where
  baseURL : String
  apiKey : String
  deriving Repr, DecidableEq

/-- Embedding of the `APIClient` constructor. -/
def APIClient.construct (config : APIConfig) : APIClient :=
  ⟨stripTrailingSlash config.baseURL, config.apiKey⟩

/-- The outbound URL `request` assembles: `${this.baseURL}${endpoint}` (any
query string is already part of the endpoint at the call sites). -/
def requestURL (client : APIClient) (endpoint : String) : String :=
  client.baseURL ++ endpoint

/-- The module-level `apiClientInstance` cell starts out `null`. -/
def initialAPIClientInstance : Option APIClient := none

/-- Embedding of `initializeAPIClient`: overwrite the cell with a client
constructed from the given config. -/
def initializeAPIClient (config : APIConfig) (_prev : Option APIClient) :
    Option APIClient :=
  some (APIClient.construct config)

/-- Embedding of `getAPIClient`: throw when the cell is still `null`, else
return the instance. -/
def getAPIClient : Option APIClient → Except String APIClient
  | none => .error "API client not initialized. Please configure API credentials."
  | some c => .ok c

/-- Embedding of `isAPIClientInitialized`: `apiClientInstance !== null`. -/
def isAPIClientInitialized (inst : Option APIClient) : Bool := inst.isSome

/-! ### Auto-refresh gating of the job-monitoring pages (C9) -/

/-- `EnrichmentJob['status']` (Jobs page). -/
inductive EnrichmentJobStatus where
  | pending | processing | completed | failed | cancelled
  deriving Repr, DecidableEq

/-- `SponsorDetectionJob['status']` (SponsorDetectionJobs page). -/
inductive SponsorDetectionJobStatus where
  | pending | completed | failed | skipped
  deriving Repr, DecidableEq

/-- Terminal states of an enrichment job. -/
def enrichmentTerminal : EnrichmentJobStatus → Bool
  | .completed | .failed | .cancelled => true
  | _ => false

/-- Terminal states of a sponsor-detection job. -/
def sdTerminal : SponsorDetectionJobStatus → Bool
  | .completed | .failed | .skipped => true
  | _ => false

/-- `AUTO_REFRESH_INTERVAL = 10000` (milliseconds). -/
def AUTO_REFRESH_INTERVAL : Nat := 10000

/-- Jobs.tsx: `statusFilter === 'pending' || statusFilter === 'processing'
|| statusFilter === ''` (the empty filter is `none`). -/
def jobsShouldAutoRefresh (statusFilter : Option EnrichmentJobStatus) : Bool :=
  statusFilter == some .pending || statusFilter == some .processing
    || statusFilter == none

/-- Jobs.tsx `useQuery` option:
`refetchInterval: shouldAutoRefresh ? AUTO_REFRESH_INTERVAL : false`. -/
def jobsQueryRefetchInterval (statusFilter : Option EnrichmentJobStatus) : Option Nat :=
  if jobsShouldAutoRefresh statusFilter then some AUTO_REFRESH_INTERVAL else none

/-- Jobs.tsx auto-refresh effect: the `setInterval` is installed iff
`shouldAutoRefresh` holds; displayed rows are not consulted. -/
def jobsEffectIntervalActive (statusFilter : Option EnrichmentJobStatus) : Bool :=
  jobsShouldAutoRefresh statusFilter

/-- Whether any timer-driven refetch keeps firing on the Jobs page in a
state with the given filter and displayed row statuses.  Both mechanisms
(the query option and the effect) depend only on the filter. -/
def jobsTimerRefetchActive (statusFilter : Option EnrichmentJobStatus)
    (_rows : List EnrichmentJobStatus) : Bool :=
  (jobsQueryRefetchInterval statusFilter).isSome
    || jobsEffectIntervalActive statusFilter

/-- SponsorDetectionJobs.tsx:
`statusFilter === 'pending' || statusFilter === ''`. -/
def sdShouldAutoRefresh (statusFilter : Option SponsorDetectionJobStatus) : Bool :=
  statusFilter == some .pending || statusFilter == none

/-- SponsorDetectionJobs.tsx: `data.items.some(job => job.status === 'pending')`. -/
def hasPendingJobs (rows : List SponsorDetectionJobStatus) : Bool :=
  rows.any fun s => s == .pending

/-- SponsorDetectionJobs.tsx `useQuery` option, filter-gated only. -/
def sdQueryRefetchInterval (statusFilter : Option SponsorDetectionJobStatus) : Option Nat :=
  if sdShouldAutoRefresh statusFilter then some AUTO_REFRESH_INTERVAL else none

/-- SponsorDetectionJobs.tsx effect interval: installed iff
`shouldAutoRefresh && hasPendingJobs`. -/
def sdEffectIntervalActive (statusFilter : Option SponsorDetectionJobStatus)
    (rows : List SponsorDetectionJobStatus) : Bool :=
  sdShouldAutoRefresh statusFilter && hasPendingJobs rows

/-- Whether any timer-driven refetch keeps firing on the
sponsor-detection page. -/
def sdTimerRefetchActive (statusFilter : Option SponsorDetectionJobStatus)
    (rows : List SponsorDetectionJobStatus) : Bool :=
  (sdQueryRefetchInterval statusFilter).isSome
    || sdEffectIntervalActive statusFilter rows

/-! ### The session-storage config store (C8)

`encode(v) = btoa(encodeURIComponent(v))` and
`decode(v) = try decodeURIComponent(atob(v)) catch ''`.  The models below
implement `encodeURIComponent` / `decodeURIComponent` (UTF-8
percent-encoding, ECMA-262 `Decode` with strict UTF-8 validity checks)
and `btoa` / `atob` (base64 over latin-1 code units, WHATWG
forgiving-base64 on decode), all executable. -/

/-- Characters `encodeURIComponent` leaves unescaped: ASCII alphanumerics
and `- _ . ! ~ * ' ( )`. -/
def isUriUnreserved (c : Char) : Bool :=
  (65 ≤ c.toNat && c.toNat ≤ 90) || (97 ≤ c.toNat && c.toNat ≤ 122)
    || (48 ≤ c.toNat && c.toNat ≤ 57)
    || c == '-' || c == '_' || c == '.' || c == '!' || c == '~' || c == '*'
    || c == '\'' || c == '(' || c == ')'

/-- `encodeURIComponent` on one character: unreserved characters pass
through, anything else is `%XX`-escaped byte-wise (uppercase hex). -/
def uriEncodeChar (c : Char) : List Char :=
  if isUriUnreserved c then [c] else (utf8Bytes c.toNat).flatMap escByte

/-- Model of `encodeURIComponent`. -/
def encodeURIComponentModel (s : String) : String :=
  String.mk (s.data.flatMap uriEncodeChar)

/-- A token of a percent-encoded string: a plain character or one `%XX`
escape (its byte value). -/
inductive UriTok where
  | raw (c : Char) : UriTok
  | esc (b : Nat) : UriTok
  deriving Repr, DecidableEq

/-- Hexadecimal digit value (both cases accepted, as in URI decoding). -/
def hexVal (c : Char) : Option Nat :=
  if 48 ≤ c.toNat ∧ c.toNat ≤ 57 then some (c.toNat - 48)
  else if 65 ≤ c.toNat ∧ c.toNat ≤ 70 then some (c.toNat - 55)
  else if 97 ≤ c.toNat ∧ c.toNat ≤ 102 then some (c.toNat - 87)
  else none

mutual

/-- Split a string into raw characters and `%XX` escapes; a `%` not
followed by two hex digits is a `URIError`. -/
def tokenizeEscapes : List Char → Option (List UriTok)
  | [] => some []
  | c :: rest =>
    if c = '%' then tokenizeEscAt rest
    else (tokenizeEscapes rest).map (UriTok.raw c :: ·)
termination_by l => l.length
decreasing_by all_goals simp +arith [List.length_cons]

/-- Parse the two hex digits after a `%`. -/
def tokenizeEscAt : List Char → Option (List UriTok)
  | h1 :: h2 :: rest2 =>
    match hexVal h1, hexVal h2 with
    | some a, some b => (tokenizeEscapes rest2).map (UriTok.esc (a * 16 + b) :: ·)
    | _, _ => none
  | _ => none
termination_by l => l.length
decreasing_by all_goals simp +arith [List.length_cons]

end

/-- A UTF-8 continuation byte. -/
def contByte (b : Nat) : Bool := decide (128 ≤ b) && decide (b < 192)

mutual

/-- ECMA-262 `Decode`, after tokenizing: raw characters pass through, and
each escape sequence must form a valid UTF-8 sequence (continuation
bytes also escaped; overlong encodings, surrogates and out-of-range
values rejected). -/
def utf8FromToks : List UriTok → Option (List Char)
  | [] => some []
  | .raw c :: rest => (utf8FromToks rest).map (c :: ·)
  | .esc b0 :: rest =>
    if b0 < 128 then (utf8FromToks rest).map (Char.ofNat b0 :: ·)
    else if b0 < 192 then none
    else if b0 < 224 then utf8Cont1 b0 rest
    else if b0 < 240 then utf8Cont2 b0 rest
    else if b0 < 248 then utf8Cont3 b0 rest
    else none
termination_by l => l.length
decreasing_by all_goals simp +arith [List.length_cons]

/-- One escaped continuation byte (two-byte sequences). -/
def utf8Cont1 (b0 : Nat) : List UriTok → Option (List Char)
  | .esc b1 :: rest2 =>
    let v := b0 % 32 * 64 + b1 % 64
    if contByte b1 && decide (128 ≤ v) then
      (utf8FromToks rest2).map (Char.ofNat v :: ·)
    else none
  | _ => none
termination_by l => l.length
decreasing_by all_goals simp +arith [List.length_cons]

/-- Two escaped continuation bytes (three-byte sequences). -/
def utf8Cont2 (b0 : Nat) : List UriTok → Option (List Char)
  | .esc b1 :: .esc b2 :: rest2 =>
    let v := b0 % 16 * 4096 + b1 % 64 * 64 + b2 % 64
    if contByte b1 && contByte b2 && decide (2048 ≤ v)
        && !(decide (55296 ≤ v) && decide (v < 57344)) then
      (utf8FromToks rest2).map (Char.ofNat v :: ·)
    else none
  | _ => none
termination_by l => l.length
decreasing_by all_goals simp +arith [List.length_cons]

/-- Three escaped continuation bytes (four-byte sequences). -/
def utf8Cont3 (b0 : Nat) : List UriTok → Option (List Char)
  | .esc b1 :: .esc b2 :: .esc b3 :: rest2 =>
    let v := b0 % 8 * 262144 + b1 % 64 * 4096 + b2 % 64 * 64 + b3 % 64
    if contByte b1 && contByte b2 && contByte b3
        && decide (65536 ≤ v) && decide (v < 1114112) then
      (utf8FromToks rest2).map (Char.ofNat v :: ·)
    else none
  | _ => none
termination_by l => l.length
decreasing_by all_goals simp +arith [List.length_cons]

end

/-- Model of `decodeURIComponent` (`none` = `URIError`). -/
def decodeURIComponentModel (s : String) : Option String :=
  (tokenizeEscapes s.data).bind fun toks => (utf8FromToks toks).map String.mk

/-- The base64 alphabet. -/
def b64Alphabet : String :=
  "ABCDEFGHIJKLMNOPQRSTUVWXYZabcdefghijklmnopqrstuvwxyz0123456789+/"

/-- Character of one sextet. -/
def b64Char (n : Nat) : Char := b64Alphabet.data.getD n 'A'

/-- Sextet of one alphabet character (`none` for anything else, including
`=`). -/
def b64Index (c : Char) : Option Nat :=
  let i := b64Alphabet.data.indexOf c
  if i < 64 then some i else none

/-- ASCII whitespace that forgiving-base64 strips. -/
def isB64Ws (c : Char) : Bool :=
  c == ' ' || c == '\t' || c == '\n' || c == '\x0c' || c == '\r'

/-- `btoa`'s output: three bytes become four characters, with `=` padding
for one or two trailing bytes. -/
def b64EncodeGroups : List Nat → List Char
  | [] => []
  | [a] => [b64Char (a / 4), b64Char (a % 4 * 16), '=', '=']
  | [a, b] => [b64Char (a / 4), b64Char (a % 4 * 16 + b / 16), b64Char (b % 16 * 4), '=']
  | a :: b :: c :: rest =>
    b64Char (a / 4) :: b64Char (a % 4 * 16 + b / 16) :: b64Char (b % 16 * 4 + c / 64)
      :: b64Char (c % 64) :: b64EncodeGroups rest

/-- `atob`'s group decoding (after whitespace stripping): four characters
give three bytes; a final group of two or three characters (optionally
`=`-padded to four) gives one or two bytes, extra bits discarded; anything
else, and any `=` elsewhere, is an error. -/
def atobGroups : List Char → Option (List Nat)
  | [] => some []
  | [c1, c2] => do
    let i1 ← b64Index c1
    let i2 ← b64Index c2
    pure [i1 * 4 + i2 / 16]
  | [c1, c2, c3] => do
    let i1 ← b64Index c1
    let i2 ← b64Index c2
    let i3 ← b64Index c3
    pure [i1 * 4 + i2 / 16, i2 % 16 * 16 + i3 / 4]
  | c1 :: c2 :: c3 :: c4 :: rest =>
    if c3 = '=' then
      if c4 = '=' ∧ rest = [] then do
        let i1 ← b64Index c1
        let i2 ← b64Index c2
        pure [i1 * 4 + i2 / 16]
      else none
    else if c4 = '=' then
      if rest = [] then do
        let i1 ← b64Index c1
        let i2 ← b64Index c2
        let i3 ← b64Index c3
        pure [i1 * 4 + i2 / 16, i2 % 16 * 16 + i3 / 4]
      else none
    else do
      let i1 ← b64Index c1
      let i2 ← b64Index c2
      let i3 ← b64Index c3
      let i4 ← b64Index c4
      let tail ← atobGroups rest
      pure ((i1 * 4 + i2 / 16) :: (i2 % 16 * 16 + i3 / 4) :: (i3 % 4 * 64 + i4) :: tail)
  | _ => none

/-- Model of `btoa` on a string of latin-1 code units. -/
def btoaModel (s : String) : String :=
  String.mk (b64EncodeGroups (s.data.map Char.toNat))

/-- Model of `atob` (`none` = `InvalidCharacterError`). -/
def atobModel (s : String) : Option (List Nat) :=
  atobGroups (s.data.filter fun c => !(isB64Ws c))

/-- Embedding of the storage module's `encode`:
`btoa(encodeURIComponent(value))`. -/
def encodeModel (value : String) : String :=
  btoaModel (encodeURIComponentModel value)

/-- Embedding of the storage module's `decode`:
`try decodeURIComponent(atob(value)) catch return ''`. -/
def decodeModel (value : String) : String :=
  match atobModel value with
  | none => ""
  | some bytes =>
    match decodeURIComponentModel (String.mk (bytes.map Char.ofNat)) with
    | none => ""
    | some s => s

/-- The two `sessionStorage` slots the config store uses
(`yt_webhook_api_base_url` and `yt_webhook_api_key`); `none` = key
absent. -/
structure StorageState where
  baseURLSlot : Option String
  apiKeySlot : Option String
  deriving Repr, DecidableEq

/-- Embedding of `saveAPIConfig`: store the encodings of both fields. -/
def saveAPIConfig (config : APIConfig) (_st : StorageState) : StorageState :=
  ⟨some (encodeModel config.baseURL), some (encodeModel config.apiKey)⟩

/-- Embedding of `loadAPIConfig`: `null` when either item is missing or
falsy (the empty string!), else the decoded pair. -/
def loadAPIConfig (st : StorageState) : Option APIConfig :=
  match st.baseURLSlot, st.apiKeySlot with
  | some baseURL, some apiKey =>
    if baseURL = "" || apiKey = "" then none
    else some ⟨decodeModel baseURL, decodeModel apiKey⟩
  | _, _ => none

/-- The token list `encodeURIComponent` produces for one character. -/
def uriTokOf (c : Char) : List UriTok :=
  if isUriUnreserved c then [UriTok.raw c] else (utf8Bytes c.toNat).map UriTok.esc

/-! ### Theorems -/

theorem transformGoNullTypes_arr (l : List Json) :
    transformGoNullTypes (.arr l) = .arr (l.map transformGoNullTypes) := by
  rw [transformGoNullTypes]
  simp [List.map_subtype]

theorem transformGoNullTypes_null : transformGoNullTypes .null = .null := by
  rw [transformGoNullTypes]

theorem transformGoNullTypes_undef : transformGoNullTypes .undef = .undef := by
  rw [transformGoNullTypes]

theorem transformGoNullTypes_bool (b : Bool) :
    transformGoNullTypes (.bool b) = .bool b := by
  rw [transformGoNullTypes]

theorem transformGoNullTypes_num (n : Int) :
    transformGoNullTypes (.num n) = .num n := by
  rw [transformGoNullTypes]

theorem transformGoNullTypes_str (s : String) :
    transformGoNullTypes (.str s) = .str s := by
  rw [transformGoNullTypes]

/-- When the `String`/`Valid` duck-type check matches, the object collapses
to `Valid ? String : null`. -/
theorem transformGoNullTypes_obj_str (es : List (String × Json)) (s : String) (b : Bool)
    (h1 : lookupKey "String" es = some (.str s))
    (h2 : lookupKey "Valid" es = some (.bool b)) :
    transformGoNullTypes (.obj es) = if b then .str s else .null := by
  rw [transformGoNullTypes, h1, h2]

/-- When the `String` check fails but the `Time`/`Valid` check matches, the
object collapses to `Valid ? Time : null`. -/
theorem transformGoNullTypes_obj_time (es : List (String × Json)) (t : String) (b : Bool)
    (hgs : isGoNullString (.obj es) = false)
    (h1 : lookupKey "Time" es = some (.str t))
    (h2 : lookupKey "Valid" es = some (.bool b)) :
    transformGoNullTypes (.obj es) = if b then .str t else .null := by
  rw [isGoNullString] at hgs
  rw [transformGoNullTypes]
  split
  · rename_i s' b' heq1 heq2
    rw [heq1, heq2] at hgs
    simp [strBoolShape] at hgs
  · rw [h1, h2]

/-- When neither duck-type check matches, the object is rebuilt by
recursing into each property value. -/
theorem transformGoNullTypes_obj_rec (es : List (String × Json))
    (hgs : isGoNullString (.obj es) = false)
    (hgt : isGoNullTime (.obj es) = false) :
    transformGoNullTypes (.obj es) =
      .obj (es.map fun kv => (kv.1, transformGoNullTypes kv.2)) := by
  rw [isGoNullString] at hgs
  rw [isGoNullTime] at hgt
  rw [transformGoNullTypes]
  split
  · rename_i s' b' heq1 heq2
    rw [heq1, heq2] at hgs
    simp [strBoolShape] at hgs
  · split
    · rename_i t' b' heq1 heq2
      rw [heq1, heq2] at hgt
      simp [strBoolShape] at hgt
    · exact congrArg Json.obj
        (List.attach_map_val es fun kv => (kv.1, transformGoNullTypes kv.2))

/-- C1, counterexample: an object whose own keys are `{String, Valid, Extra}`
(with `String` a string and `Valid` a boolean) IS collapsed by
`transformGoNullTypes` — the type guards only test key presence, not the
exact key set — contradicting the claim that such an object is treated as
a normal object. -/
theorem C1_counterexample_extra_keys_collapse :
    transformGoNullTypes
        (Json.obj [("String", Json.str "x"), ("Valid", Json.bool true), ("Extra", Json.num 1)])
      = Json.str "x" ∧
    transformGoNullTypes
        (Json.obj [("String", Json.str "x"), ("Valid", Json.bool true), ("Extra", Json.num 1)])
      ≠ Json.obj [("String", Json.str "x"), ("Valid", Json.bool true), ("Extra", Json.num 1)] := by
  have h := transformGoNullTypes_obj_str
    [("String", Json.str "x"), ("Valid", Json.bool true), ("Extra", Json.num 1)] "x" true rfl rfl
  simp only [if_pos] at h
  exact ⟨h, by rw [h]; simp⟩

/-- C1 (amended): `transformGoNullTypes` collapses a plain object to
`Valid ? String : null` whenever its own keys INCLUDE `String` (a string)
and `Valid` (a boolean) — extra keys do not prevent the collapse, so an
object with keys `{String, Valid, Extra}` is collapsed as well; the
`String` rule is tested before the `Time` rule; and only when neither
rule matches does normalization recurse into the properties as a normal
object. -/
theorem C1_goNull_collapse_presence_based :
    (∀ es s b, lookupKey "String" es = some (Json.str s) →
        lookupKey "Valid" es = some (Json.bool b) →
        transformGoNullTypes (Json.obj es) = if b then Json.str s else Json.null) ∧
    (∀ es t b, isGoNullString (Json.obj es) = false →
        lookupKey "Time" es = some (Json.str t) →
        lookupKey "Valid" es = some (Json.bool b) →
        transformGoNullTypes (Json.obj es) = if b then Json.str t else Json.null) ∧
    (∀ es, isGoNullString (Json.obj es) = false → isGoNullTime (Json.obj es) = false →
        transformGoNullTypes (Json.obj es)
          = Json.obj (es.map fun kv => (kv.1, transformGoNullTypes kv.2))) ∧
    (∀ s b j, transformGoNullTypes
        (Json.obj [("String", Json.str s), ("Valid", Json.bool b), ("Extra", j)])
      = if b then Json.str s else Json.null) :=
  ⟨transformGoNullTypes_obj_str,
   transformGoNullTypes_obj_time,
   transformGoNullTypes_obj_rec,
   fun s b j => transformGoNullTypes_obj_str
     [("String", Json.str s), ("Valid", Json.bool b), ("Extra", j)] s b rfl rfl⟩

/-- C1, witness: concrete instances of the amended claim. -/
theorem C1_goNull_collapse_presence_based_witness :
    transformGoNullTypes (Json.obj [("String", Json.str "a"), ("Valid", Json.bool false)])
        = Json.null ∧
    transformGoNullTypes (Json.obj [("Time", Json.str "2024-01-01"), ("Valid", Json.bool true)])
        = Json.str "2024-01-01" ∧
    transformGoNullTypes (Json.obj [("id", Json.num 1)]) = Json.obj [("id", Json.num 1)] ∧
    transformGoNullTypes
        (Json.obj [("String", Json.str "x"), ("Valid", Json.bool true), ("Extra", Json.num 1)])
      = Json.str "x" := by
  obtain ⟨h1, h2, h3, h4⟩ := C1_goNull_collapse_presence_based
  refine ⟨?_, ?_, ?_, ?_⟩
  · simpa using h1 [("String", Json.str "a"), ("Valid", Json.bool false)] "a" false rfl rfl
  · simpa using h2 [("Time", Json.str "2024-01-01"), ("Valid", Json.bool true)]
      "2024-01-01" true rfl rfl rfl
  · simpa [transformGoNullTypes_num] using h3 [("id", Json.num 1)] rfl rfl
  · simpa using h4 "x" true (Json.num 1)

theorem all_pmap_subtype {α : Type} (p : α → Prop) (f : α → Bool) :
    ∀ (l : List α) (H : ∀ a ∈ l, p a),
      ((l.pmap Subtype.mk H).all fun x => f x.1) = l.all f
  | [], _ => rfl
  | a :: t, H => by
    simp only [List.pmap, List.all_cons]
    rw [all_pmap_subtype p f t]

theorem flatNullFields_arr (l : List Json) :
    flatNullFields (.arr l) = l.all flatNullFields := by
  rw [flatNullFields, List.attach, List.attachWith]
  exact all_pmap_subtype _ flatNullFields l _

theorem flatNullFields_obj (es : List (String × Json)) :
    flatNullFields (.obj es) = es.all fun kv =>
      (!((kv.1 == "String" || kv.1 == "Time") && kv.2.isObjCtor))
        && flatNullFields kv.2 := by
  rw [flatNullFields, List.attach, List.attachWith]
  exact all_pmap_subtype _
    (fun kv => (!((kv.1 == "String" || kv.1 == "Time") && kv.2.isObjCtor))
      && flatNullFields kv.2) es _

/-- A successful `lookupKey` finds an entry of the list. -/
theorem lookupKey_mem (k : String) :
    ∀ (es : List (String × Json)) (v : Json),
      lookupKey k es = some v → (k, v) ∈ es
  | [], v, h => by simp [lookupKey] at h
  | (k', v') :: rest, v, h => by
    rw [lookupKey] at h
    by_cases hk : k' = k
    · rw [if_pos hk] at h
      injection h with h'
      subst h'
      subst hk
      exact List.mem_cons_self _ _
    · rw [if_neg hk] at h
      exact List.mem_cons_of_mem _ (lookupKey_mem k rest v h)

/-- Looking a key up after rewriting every value commutes with the rewrite. -/
theorem lookupKey_map (k : String) (f : Json → Json) :
    ∀ es : List (String × Json),
      lookupKey k (es.map fun kv => (kv.1, f kv.2)) = (lookupKey k es).map f
  | [] => rfl
  | (k', v') :: rest => by
    simp only [List.map_cons]
    rw [lookupKey, lookupKey]
    by_cases hk : k' = k
    · rw [if_pos hk, if_pos hk]
      rfl
    · rw [if_neg hk, if_neg hk]
      exact lookupKey_map k f rest

theorem transform_obj_isBool_false (es : List (String × Json)) :
    (transformGoNullTypes (Json.obj es)).isBoolCtor = false := by
  rw [transformGoNullTypes]
  split
  · rename_i s b heq1 heq2
    cases b <;> rfl
  · split
    · rename_i t b heq1 heq2
      cases b <;> rfl
    · rfl

/-- Normalization never turns a non-string non-object into a string. -/
theorem transform_isStr_false (v : Json) (hs : v.isStrCtor = false)
    (ho : v.isObjCtor = false) :
    (transformGoNullTypes v).isStrCtor = false := by
  cases v <;> simp_all [Json.isStrCtor, Json.isObjCtor, transformGoNullTypes_null,
    transformGoNullTypes_undef, transformGoNullTypes_bool, transformGoNullTypes_num,
    transformGoNullTypes_arr]

/-- Normalization never turns a non-boolean into a boolean. -/
theorem transform_isBool_false (v : Json) (hb : v.isBoolCtor = false) :
    (transformGoNullTypes v).isBoolCtor = false := by
  cases v <;>
    first
      | exact transform_obj_isBool_false _
      | simp_all [Json.isBoolCtor, transformGoNullTypes_null,
          transformGoNullTypes_undef, transformGoNullTypes_num,
          transformGoNullTypes_str, transformGoNullTypes_arr]

theorem strBoolShape_none_fst (o2 : Option Json) : strBoolShape none o2 = false := by
  cases o2 with
  | none => rfl
  | some w => cases w <;> rfl

theorem strBoolShape_none_snd (o1 : Option Json) : strBoolShape o1 none = false := by
  cases o1 with
  | none => rfl
  | some v => cases v <;> rfl

theorem strBoolShape_fst_not_str (v w : Json) (hv : v.isStrCtor = false) :
    strBoolShape (some v) (some w) = false := by
  cases v <;> cases w <;> simp_all [Json.isStrCtor, strBoolShape]

theorem strBoolShape_snd_not_bool (v w : Json) (hw : w.isBoolCtor = false) :
    strBoolShape (some v) (some w) = false := by
  cases v <;> cases w <;> simp_all [Json.isBoolCtor, strBoolShape]

theorem strBoolShape_true_exists (o1 o2 : Option Json) (h : strBoolShape o1 o2 = true) :
    ∃ s b, o1 = some (Json.str s) ∧ o2 = some (Json.bool b) := by
  cases o1 with
  | none => rw [strBoolShape_none_fst] at h; simp at h
  | some v =>
    cases o2 with
    | none => rw [strBoolShape_none_snd] at h; simp at h
    | some w => cases v <;> cases w <;> simp_all [strBoolShape]

/-- A failed duck-type check stays failed after one normalization pass of
the looked-up values, provided the payload value is not itself an object. -/
theorem strBoolShape_transform_false (o1 o2 : Option Json)
    (hobj : ∀ v, o1 = some v → v.isObjCtor = false)
    (h : strBoolShape o1 o2 = false) :
    strBoolShape (o1.map transformGoNullTypes) (o2.map transformGoNullTypes) = false := by
  cases o1 with
  | none => simpa using strBoolShape_none_fst (o2.map transformGoNullTypes)
  | some v =>
    cases o2 with
    | none => simpa using strBoolShape_none_snd (some (transformGoNullTypes v))
    | some w =>
      simp only [Option.map_some']
      cases v with
      | str s =>
        have hw : w.isBoolCtor = false := by
          cases w <;> simp_all [strBoolShape, Json.isBoolCtor]
        rw [transformGoNullTypes_str]
        exact strBoolShape_snd_not_bool _ _ (transform_isBool_false w hw)
      | obj es => simpa [Json.isObjCtor] using hobj _ rfl
      | null => exact strBoolShape_fst_not_str _ _ (transform_isStr_false _ rfl rfl)
      | undef => exact strBoolShape_fst_not_str _ _ (transform_isStr_false _ rfl rfl)
      | bool b => exact strBoolShape_fst_not_str _ _ (transform_isStr_false _ rfl rfl)
      | num n => exact strBoolShape_fst_not_str _ _ (transform_isStr_false _ rfl rfl)
      | arr l => exact strBoolShape_fst_not_str _ _ (transform_isStr_false _ rfl rfl)

/-- Member-wise induction principle for the nested `Json` inductive. -/
theorem Json.indMem {motive : Json → Prop}
    (hnull : motive .null) (hundef : motive .undef)
    (hbool : ∀ b, motive (.bool b)) (hnum : ∀ n, motive (.num n))
    (hstr : ∀ s, motive (.str s))
    (harr : ∀ l, (∀ j ∈ l, motive j) → motive (.arr l))
    (hobj : ∀ es, (∀ kv ∈ es, motive kv.2) → motive (.obj es)) :
    ∀ j, motive j
  | .null => hnull
  | .undef => hundef
  | .bool b => hbool b
  | .num n => hnum n
  | .str s => hstr s
  | .arr l => harr l fun j hj =>
      Json.indMem hnull hundef hbool hnum hstr harr hobj j
  | .obj es => hobj es fun kv hkv =>
      Json.indMem hnull hundef hbool hnum hstr harr hobj kv.2
termination_by j => sizeOf j
decreasing_by
  · have h1 := List.sizeOf_lt_of_mem hj
    simp only [Json.arr.sizeOf_spec]
    omega
  · have h1 := List.sizeOf_lt_of_mem hkv
    obtain ⟨k, v⟩ := kv
    simp only [Prod.mk.sizeOf_spec] at h1
    simp only [Json.obj.sizeOf_spec]
    omega

theorem flatNullFields_null : flatNullFields .null = true := by rw [flatNullFields]

theorem flatNullFields_undef : flatNullFields .undef = true := by rw [flatNullFields]

theorem flatNullFields_bool (b : Bool) : flatNullFields (.bool b) = true := by
  rw [flatNullFields]

theorem flatNullFields_num (n : Int) : flatNullFields (.num n) = true := by
  rw [flatNullFields]

theorem flatNullFields_str (s : String) : flatNullFields (.str s) = true := by
  rw [flatNullFields]

/-- C10, counterexample: a wrapped-null value nested inside the `String`
key of another `String`/`Valid` object is collapsed by the first pass into
a shape that the second pass collapses again, so `transformGoNullTypes` is
not idempotent. -/
theorem C10_counterexample_nested_collapse :
    transformGoNullTypes (transformGoNullTypes
      (Json.obj [("String", Json.obj [("String", Json.str "a"), ("Valid", Json.bool true)]),
                 ("Valid", Json.bool true)]))
    ≠ transformGoNullTypes
      (Json.obj [("String", Json.obj [("String", Json.str "a"), ("Valid", Json.bool true)]),
                 ("Valid", Json.bool true)]) := by
  have hin : transformGoNullTypes
      (Json.obj [("String", Json.str "a"), ("Valid", Json.bool true)]) = Json.str "a" := by
    simpa using transformGoNullTypes_obj_str
      [("String", Json.str "a"), ("Valid", Json.bool true)] "a" true rfl rfl
  have h1 : transformGoNullTypes
      (Json.obj [("String", Json.obj [("String", Json.str "a"), ("Valid", Json.bool true)]),
                 ("Valid", Json.bool true)])
      = Json.obj [("String", Json.str "a"), ("Valid", Json.bool true)] := by
    rw [transformGoNullTypes_obj_rec
      [("String", Json.obj [("String", Json.str "a"), ("Valid", Json.bool true)]),
       ("Valid", Json.bool true)] rfl rfl]
    simp [hin, transformGoNullTypes_bool]
  rw [h1, hin]
  simp

/-- C10 (amended): `transformGoNullTypes` is not idempotent in general (see
the counterexample); it is idempotent on every value in which no object
stores another object under its `String` or `Time` key, since a single
pass then leaves no residual collapsible shape. -/
theorem C10_transform_idempotent_on_flat :
    ∀ j : Json, flatNullFields j = true →
      transformGoNullTypes (transformGoNullTypes j) = transformGoNullTypes j := by
  intro j
  induction j using Json.indMem with
  | hnull => intro _; simp only [transformGoNullTypes_null]
  | hundef => intro _; simp only [transformGoNullTypes_undef]
  | hbool b => intro _; simp only [transformGoNullTypes_bool]
  | hnum n => intro _; simp only [transformGoNullTypes_num]
  | hstr s => intro _; simp only [transformGoNullTypes_str]
  | harr l ih =>
    intro hf
    rw [flatNullFields_arr, List.all_eq_true] at hf
    rw [transformGoNullTypes_arr, transformGoNullTypes_arr, List.map_map]
    congr 1
    exact List.map_congr_left fun a ha => by
      simpa [Function.comp] using ih a ha (hf a ha)
  | hobj es ih =>
    intro hf
    have hent : ∀ kv ∈ es,
        ((kv.1 == "String" || kv.1 == "Time") && kv.2.isObjCtor) = false
          ∧ flatNullFields kv.2 = true := by
      rw [flatNullFields_obj, List.all_eq_true] at hf
      intro kv hkv
      have h := hf kv hkv
      rw [Bool.and_eq_true, Bool.not_eq_true'] at h
      exact h
    have hobjS : ∀ v, lookupKey "String" es = some v → v.isObjCtor = false := by
      intro v hv
      have := (hent _ (lookupKey_mem "String" es v hv)).1
      simpa using this
    have hobjT : ∀ v, lookupKey "Time" es = some v → v.isObjCtor = false := by
      intro v hv
      have := (hent _ (lookupKey_mem "Time" es v hv)).1
      simpa using this
    cases hgs : isGoNullString (Json.obj es) with
    | true =>
      rw [isGoNullString] at hgs
      obtain ⟨s, b, hS, hV⟩ := strBoolShape_true_exists _ _ hgs
      rw [transformGoNullTypes_obj_str es s b hS hV]
      cases b <;> simp [transformGoNullTypes_str, transformGoNullTypes_null]
    | false =>
      cases hgt : isGoNullTime (Json.obj es) with
      | true =>
        rw [isGoNullTime] at hgt
        obtain ⟨t, b, hT, hV⟩ := strBoolShape_true_exists _ _ hgt
        rw [transformGoNullTypes_obj_time es t b hgs hT hV]
        cases b <;> simp [transformGoNullTypes_str, transformGoNullTypes_null]
      | false =>
        rw [transformGoNullTypes_obj_rec es hgs hgt]
        have hgs2 : isGoNullString
            (Json.obj (es.map fun kv => (kv.1, transformGoNullTypes kv.2))) = false := by
          rw [isGoNullString, lookupKey_map, lookupKey_map]
          apply strBoolShape_transform_false _ _ hobjS
          rw [isGoNullString] at hgs
          exact hgs
        have hgt2 : isGoNullTime
            (Json.obj (es.map fun kv => (kv.1, transformGoNullTypes kv.2))) = false := by
          rw [isGoNullTime, lookupKey_map, lookupKey_map]
          apply strBoolShape_transform_false _ _ hobjT
          rw [isGoNullTime] at hgt
          exact hgt
        rw [transformGoNullTypes_obj_rec _ hgs2 hgt2]
        congr 1
        rw [List.map_map]
        apply List.map_congr_left
        intro kv hkv
        simp only [Function.comp]
        rw [ih kv hkv (hent kv hkv).2]

/-- C10, witness: a flat wrapped-null object, on which the two passes agree. -/
theorem C10_transform_idempotent_on_flat_witness :
    flatNullFields (Json.obj [("String", Json.str "x"), ("Valid", Json.bool true)]) = true ∧
    transformGoNullTypes (transformGoNullTypes
        (Json.obj [("String", Json.str "x"), ("Valid", Json.bool true)]))
      = transformGoNullTypes
        (Json.obj [("String", Json.str "x"), ("Valid", Json.bool true)]) := by
  have hflat : flatNullFields
      (Json.obj [("String", Json.str "x"), ("Valid", Json.bool true)]) = true := by
    simp [flatNullFields_obj, flatNullFields_str, flatNullFields_bool, Json.isObjCtor]
  exact ⟨hflat, C10_transform_idempotent_on_flat _ hflat⟩

theorem keepParam_iff (v : QueryVal) :
    keepParam v = true ↔
      (v ≠ QueryVal.undef ∧ v ≠ QueryVal.null ∧ v ≠ QueryVal.str "") := by
  cases v <;> simp [keepParam]

/-- C2: `buildQueryString` serializes exactly the filter keys whose values
are not `undefined`, not `null` and not the empty string, each via
`String(value)`; for `{limit: 20, offset: 0, title: ''}` the query string
keeps `limit=20` and `offset=0` (numeric zero survives) and omits
`title`. -/
theorem C2_buildQueryString_skips_empty :
    (∀ (params : List (String × QueryVal)) (k : String),
        (∃ s, (k, s) ∈ queryPairs params) ↔
          ∃ v, (k, v) ∈ params ∧ v ≠ QueryVal.undef ∧ v ≠ QueryVal.null
            ∧ v ≠ QueryVal.str "") ∧
    (∀ (params : List (String × QueryVal)) (p : String × String),
        p ∈ queryPairs params →
          ∃ v, (p.1, v) ∈ params ∧ keepParam v = true ∧ p.2 = jsValString v) ∧
    buildQueryString
        [("limit", QueryVal.num 20), ("offset", QueryVal.num 0), ("title", QueryVal.str "")]
      = "?limit=20&offset=0" := by
  refine ⟨?_, ?_, by decide⟩
  · intro params k
    constructor
    · rintro ⟨s, hs⟩
      rw [queryPairs, List.mem_filterMap] at hs
      obtain ⟨⟨k', v⟩, hmem, hf⟩ := hs
      split at hf
      · rename_i hkeep
        injection hf with hf'
        injection hf' with hk hs'
        subst hk
        exact ⟨v, hmem, (keepParam_iff v).mp hkeep⟩
      · exact absurd hf (by simp)
    · rintro ⟨v, hmem, hv⟩
      refine ⟨jsValString v, ?_⟩
      rw [queryPairs, List.mem_filterMap]
      exact ⟨(k, v), hmem, by rw [if_pos ((keepParam_iff v).mpr hv)]⟩
  · intro params p hp
    rw [queryPairs, List.mem_filterMap] at hp
    obtain ⟨⟨k', v⟩, hmem, hf⟩ := hp
    split at hf
    · rename_i hkeep
      injection hf with hf'
      rw [← hf']
      exact ⟨v, hmem, hkeep, rfl⟩
    · exact absurd hf (by simp)

/-- C2, witness: the general parts of the theorem applied to a concrete
filter list. -/
theorem C2_buildQueryString_skips_empty_witness :
    (∃ s, ("limit", s) ∈ queryPairs [("limit", QueryVal.num 20), ("title", QueryVal.str "")]) ∧
    (∃ v, ("limit", v) ∈ [("limit", QueryVal.num 20), ("title", QueryVal.str "")]
      ∧ keepParam v = true ∧ "20" = jsValString v) := by
  have h := C2_buildQueryString_skips_empty
  constructor
  · exact (h.1 [("limit", QueryVal.num 20), ("title", QueryVal.str "")] "limit").mpr
      ⟨QueryVal.num 20, by simp, by decide, by decide, by decide⟩
  · exact h.2.1 [("limit", QueryVal.num 20), ("title", QueryVal.str "")] ("limit", "20")
      (by decide)

/-- C3: every non-2xx, non-JSON response that looks like an HTML document
fails with exactly the generic `Server error (<status> <statusText>). The
API may be unavailable.` message (status attached, no detail), so the raw
HTML body is never used as the message. -/
theorem C3_html_error_sanitized (r : Response)
    (hok : respOk r.status = false)
    (hjson : ctIncludes r.contentType "application/json" = false)
    (hhtml : htmlErrorLike r = true) :
    requestOutcome r = .failure (mkAPIClientError
      ("Server error (" ++ toString r.status ++ " " ++ r.statusText
        ++ "). The API may be unavailable.") (some r.status) none) := by
  have hne : ("Server error (" ++ toString r.status ++ " " ++ r.statusText
      ++ "). The API may be unavailable.") ≠ "" := by
    intro h
    have hlen := congrArg String.length h
    rw [String.length_append, String.length_append, String.length_append,
      String.length_append] at hlen
    have h14 : ("Server error (" : String).length = 14 := rfl
    rw [h14] at hlen
    simp at hlen
  simp [requestOutcome, hok, hjson, hhtml, hne]

/-- C3, witness: the 502 `text/html` example, whose message is the
sanitized template and does not contain the HTML body. -/
theorem C3_html_error_sanitized_witness :
    requestOutcome ⟨502, "Bad Gateway", some "text/html", Json.null,
        "<!DOCTYPE html><html><body>Error page</body></html>"⟩
      = .failure (mkAPIClientError
          "Server error (502 Bad Gateway). The API may be unavailable." (some 502) none) ∧
    strContainsSub "Server error (502 Bad Gateway). The API may be unavailable."
        "<!DOCTYPE html><html><body>Error page</body></html>" = false := by
  constructor
  · have h := C3_html_error_sanitized
      ⟨502, "Bad Gateway", some "text/html", Json.null,
        "<!DOCTYPE html><html><body>Error page</body></html>"⟩
      (by decide) (by decide) (by decide)
    have hmsg : ("Server error (" ++ toString (502 : Nat) ++ " " ++ "Bad Gateway"
        ++ "). The API may be unavailable.")
        = "Server error (502 Bad Gateway). The API may be unavailable." := by decide
    rw [h, hmsg]
  · decide

/-- C4, counterexample: a non-2xx JSON response whose `detail` is present
but empty gets the fallback message `API request failed`, not the
server-supplied detail `""` — `errorData.detail || 'API request failed'`
falls back on every falsy detail, not only on an absent one. -/
theorem C4_counterexample_empty_detail :
    requestOutcome ⟨400, "Bad Request", some "application/json",
        Json.obj [("detail", Json.str "")], ""⟩
      = .failure (mkAPIClientError "API request failed" (some 400) (some "")) ∧
    ("API request failed" : String) ≠ "" := by
  exact ⟨rfl, by decide⟩

/-- C4 (amended): on a non-2xx JSON response the raised `APIClientError`
carries the HTTP status and the server `detail`; its message is the server
detail when that is present and nonempty, and `API request failed` when
the detail is absent or the empty string. -/
theorem C4_json_error_surfaces_detail :
    (∀ (r : Response) (s : String), respOk r.status = false →
        ctIncludes r.contentType "application/json" = true →
        detailField r.jsonBody = some s → s ≠ "" →
        requestOutcome r = .failure (mkAPIClientError s (some r.status) (some s))) ∧
    (∀ r : Response, respOk r.status = false →
        ctIncludes r.contentType "application/json" = true →
        detailField r.jsonBody = none →
        requestOutcome r
          = .failure (mkAPIClientError "API request failed" (some r.status) none)) ∧
    (∀ r : Response, respOk r.status = false →
        ctIncludes r.contentType "application/json" = true →
        detailField r.jsonBody = some "" →
        requestOutcome r
          = .failure (mkAPIClientError "API request failed" (some r.status) (some ""))) := by
  refine ⟨?_, ?_, ?_⟩
  · intro r s hok hjson hdet hs
    simp [requestOutcome, hok, hjson, hdet, hs]
  · intro r hok hjson hdet
    simp [requestOutcome, hok, hjson, hdet]
  · intro r hok hjson hdet
    simp [requestOutcome, hok, hjson, hdet]

/-- C4, witness: the 401 `{"detail":"Unauthorized"}` example fails with
message `Unauthorized` and status 401. -/
theorem C4_json_error_surfaces_detail_witness :
    requestOutcome ⟨401, "Unauthorized", some "application/json",
        Json.obj [("detail", Json.str "Unauthorized")], ""⟩
      = .failure (mkAPIClientError "Unauthorized" (some 401) (some "Unauthorized")) := by
  exact C4_json_error_surfaces_detail.1
    ⟨401, "Unauthorized", some "application/json",
      Json.obj [("detail", Json.str "Unauthorized")], ""⟩
    "Unauthorized" (by decide) (by decide) rfl (by decide)

/-- C5: every response with status 204 resolves to the explicit no-content
result, whatever its content type or body — neither the body parse nor the
content-type check is reached. -/
theorem C5_status_204_no_content (r : Response) (h : r.status = 204) :
    requestOutcome r = .noContent := by
  rw [requestOutcome, h]
  rfl

/-- C5, witness: a deletion response with an empty body and no content
type. -/
theorem C5_status_204_no_content_witness :
    requestOutcome ⟨204, "No Content", none, Json.null, ""⟩ = .noContent :=
  C5_status_204_no_content ⟨204, "No Content", none, Json.null, ""⟩ rfl

theorem stripTrailingSlash_of_no_slash (s : String)
    (hs : s.data.getLast? ≠ some '/') : stripTrailingSlash s = s := by
  rw [stripTrailingSlash]
  split
  · rename_i rest heq
    exfalso
    apply hs
    rw [← List.head?_reverse, heq]
    rfl
  · rfl

theorem stripTrailingSlash_append_slash (s : String) :
    stripTrailingSlash (s ++ "/") = s := by
  rw [stripTrailingSlash]
  rw [show (s ++ "/").data.reverse = '/' :: s.data.reverse by
    simp [String.data_append]]
  simp

/-- C6, counterexample: for a base URL that itself ends in a slash, adding
one more trailing slash changes the outbound URLs, because the constructor
strips only a single slash. -/
theorem C6_counterexample_double_slash :
    requestURL (APIClient.construct ⟨"http://x/", "k"⟩) "/api/v1/channels"
      ≠ requestURL (APIClient.construct ⟨"http://x/" ++ "/", "k"⟩) "/api/v1/channels" := by
  decide

/-- C6 (amended): for every base URL `h` that does not already end in `/`,
the client constructed from `h` and the client constructed from `h ++ "/"`
build identical outbound URLs for every endpoint and API key (one trailing
slash is stripped at construction). -/
theorem C6_trailing_slash_insensitive (h e k : String)
    (hh : h.data.getLast? ≠ some '/') :
    requestURL (APIClient.construct ⟨h, k⟩) e
      = requestURL (APIClient.construct ⟨h ++ "/", k⟩) e := by
  show stripTrailingSlash h ++ e = stripTrailingSlash (h ++ "/") ++ e
  rw [stripTrailingSlash_of_no_slash h hh, stripTrailingSlash_append_slash]

/-- C6, witness: a slash-free host builds the same URL with and without
the trailing slash. -/
theorem C6_trailing_slash_insensitive_witness :
    requestURL (APIClient.construct ⟨"http://localhost:8000", "key"⟩) "/api/v1/channels"
      = requestURL (APIClient.construct ⟨"http://localhost:8000" ++ "/", "key"⟩)
          "/api/v1/channels" :=
  C6_trailing_slash_insensitive "http://localhost:8000" "/api/v1/channels" "key" (by decide)

/-- C7: before any `initializeAPIClient` call the accessor throws (it
never yields a client, let alone a null one); after `initializeAPIClient`
runs with some config, the accessor returns the client constructed from
exactly that config and `isAPIClientInitialized` reports `true`. -/
theorem C7_accessor_fail_fast :
    getAPIClient initialAPIClientInstance
        = .error "API client not initialized. Please configure API credentials." ∧
    (∀ st, isAPIClientInitialized st = false →
        getAPIClient st
          = .error "API client not initialized. Please configure API credentials.") ∧
    (∀ config prev, getAPIClient (initializeAPIClient config prev)
        = .ok (APIClient.construct config)) ∧
    (∀ config prev, isAPIClientInitialized (initializeAPIClient config prev) = true) := by
  refine ⟨rfl, ?_, fun _ _ => rfl, fun _ _ => rfl⟩
  intro st h
  cases st with
  | none => rfl
  | some c => simp [isAPIClientInitialized] at h

/-- C7, witness: the uninitialized cell and one concrete initialization. -/
theorem C7_accessor_fail_fast_witness :
    getAPIClient none
        = .error "API client not initialized. Please configure API credentials." ∧
    getAPIClient (initializeAPIClient ⟨"http://localhost:8000", "key"⟩ none)
        = .ok (APIClient.construct ⟨"http://localhost:8000", "key"⟩) := by
  have h := C7_accessor_fail_fast
  exact ⟨h.2.1 none rfl, h.2.2.1 ⟨"http://localhost:8000", "key"⟩ none⟩

/-- C9, counterexample: on the Jobs page with the all-statuses filter and
a single displayed row in the terminal state `completed`, the 10-second
timer still keeps refetching, contradicting the claim that it stops once
no non-terminal rows remain. -/
theorem C9_counterexample_terminal_rows_still_refetch :
    enrichmentTerminal .completed = true ∧
    jobsTimerRefetchActive none [.completed] = true := by
  decide

/-- C9 (amended): the 10-second auto-refresh is gated on the status filter
alone, not on the displayed rows.  It stops exactly when the filter
excludes non-terminal states: a terminal-status filter disables every
timer on both pages, and on the Jobs page the rows are ignored entirely
(states differing only in rows behave identically).  Only the
supplementary effect timer of the sponsor-detection page additionally
stops when no displayed row is pending; its query-level timer does not. -/
theorem C9_auto_refresh_gated_on_filter_only :
    (∀ (s : EnrichmentJobStatus) (rows : List EnrichmentJobStatus),
        enrichmentTerminal s = true →
        jobsTimerRefetchActive (some s) rows = false) ∧
    (∀ (s : SponsorDetectionJobStatus) (rows : List SponsorDetectionJobStatus),
        sdTerminal s = true →
        sdTimerRefetchActive (some s) rows = false) ∧
    (∀ (f : Option EnrichmentJobStatus) (rows rows' : List EnrichmentJobStatus),
        jobsTimerRefetchActive f rows = jobsTimerRefetchActive f rows') ∧
    (∀ (f : Option SponsorDetectionJobStatus) (rows : List SponsorDetectionJobStatus),
        (∀ s ∈ rows, s ≠ .pending) →
        sdEffectIntervalActive f rows = false) ∧
    (∀ f : Option EnrichmentJobStatus,
        jobsTimerRefetchActive f [] = jobsShouldAutoRefresh f) := by
  refine ⟨?_, ?_, ?_, ?_, ?_⟩
  · intro s rows hs
    cases s <;> simp_all [enrichmentTerminal, jobsTimerRefetchActive,
      jobsQueryRefetchInterval, jobsEffectIntervalActive, jobsShouldAutoRefresh]
  · intro s rows hs
    cases s <;> simp_all [sdTerminal, sdTimerRefetchActive,
      sdQueryRefetchInterval, sdEffectIntervalActive, sdShouldAutoRefresh,
      hasPendingJobs]
  · intro f rows rows'
    rfl
  · intro f rows hrows
    rw [sdEffectIntervalActive]
    have : hasPendingJobs rows = false := by
      rw [hasPendingJobs]
      rw [List.any_eq_false]
      intro s hs
      simpa using hrows s hs
    rw [this, Bool.and_false]
  · intro f
    cases f <;> simp [jobsTimerRefetchActive, jobsQueryRefetchInterval,
      jobsEffectIntervalActive, jobsShouldAutoRefresh]

/-- C9, witness: concrete instances — a `completed` filter silences both
pages' timers, and an all-terminal row list silences the sponsor-detection
effect timer. -/
theorem C9_auto_refresh_gated_on_filter_only_witness :
    jobsTimerRefetchActive (some .completed) [.pending] = false ∧
    sdTimerRefetchActive (some .completed) [.pending] = false ∧
    sdEffectIntervalActive none [.completed, .failed] = false := by
  have h := C9_auto_refresh_gated_on_filter_only
  refine ⟨h.1 .completed [.pending] (by decide),
    h.2.1 .completed [.pending] (by decide),
    h.2.2.2.1 none [.completed, .failed] ?_⟩
  decide

theorem b64Alphabet_length : b64Alphabet.data.length = 64 := by decide

theorem b64Char_ne_pad (n : Nat) : b64Char n ≠ '=' := by
  by_cases h : n < 64
  · have hall : ∀ m, m < 64 → b64Char m ≠ '=' := by decide
    exact hall n h
  · rw [b64Char, List.getD_eq_default]
    · decide
    · rw [b64Alphabet_length]
      omega

theorem b64Char_not_ws (n : Nat) : isB64Ws (b64Char n) = false := by
  by_cases h : n < 64
  · have hall : ∀ m, m < 64 → isB64Ws (b64Char m) = false := by decide
    exact hall n h
  · rw [b64Char, List.getD_eq_default]
    · decide
    · rw [b64Alphabet_length]
      omega

theorem b64Index_b64Char (n : Nat) (h : n < 64) : b64Index (b64Char n) = some n := by
  have hall : ∀ m, m < 64 → b64Index (b64Char m) = some m := by decide
  exact hall n h

theorem b64EncodeGroups_not_ws :
    ∀ (bytes : List Nat) (c : Char), c ∈ b64EncodeGroups bytes → isB64Ws c = false
  | [], c, h => by simp [b64EncodeGroups] at h
  | [a], c, h => by
    simp only [b64EncodeGroups, List.mem_cons, List.not_mem_nil, or_false] at h
    rcases h with rfl | rfl | rfl | rfl
    · exact b64Char_not_ws _
    · exact b64Char_not_ws _
    · decide
    · decide
  | [a, b], c, h => by
    simp only [b64EncodeGroups, List.mem_cons, List.not_mem_nil, or_false] at h
    rcases h with rfl | rfl | rfl | rfl
    · exact b64Char_not_ws _
    · exact b64Char_not_ws _
    · exact b64Char_not_ws _
    · decide
  | a :: b :: d :: rest, c, h => by
    simp only [b64EncodeGroups, List.mem_cons] at h
    rcases h with rfl | rfl | rfl | rfl | h
    · exact b64Char_not_ws _
    · exact b64Char_not_ws _
    · exact b64Char_not_ws _
    · exact b64Char_not_ws _
    · exact b64EncodeGroups_not_ws rest c h

theorem b64EncodeGroups_filter_ws (bytes : List Nat) :
    (b64EncodeGroups bytes).filter (fun c => !(isB64Ws c)) = b64EncodeGroups bytes := by
  apply List.filter_eq_self.mpr
  intro c hc
  rw [b64EncodeGroups_not_ws bytes c hc]
  rfl

theorem atobGroups_b64EncodeGroups :
    ∀ bytes : List Nat, (∀ b ∈ bytes, b < 256) →
      atobGroups (b64EncodeGroups bytes) = some bytes
  | [], _ => rfl
  | [a], h => by
    have ha : a < 256 := h a (by simp)
    show atobGroups [b64Char (a / 4), b64Char (a % 4 * 16), '=', '='] = some [a]
    rw [atobGroups]
    rw [if_pos rfl, if_pos ⟨rfl, rfl⟩]
    rw [b64Index_b64Char _ (by omega), b64Index_b64Char _ (by omega)]
    show some [a / 4 * 4 + a % 4 * 16 / 16] = some [a]
    have : a / 4 * 4 + a % 4 * 16 / 16 = a := by omega
    rw [this]
  | [a, b], h => by
    have ha : a < 256 := h a (by simp)
    have hb : b < 256 := h b (by simp)
    show atobGroups
        [b64Char (a / 4), b64Char (a % 4 * 16 + b / 16), b64Char (b % 16 * 4), '=']
      = some [a, b]
    rw [atobGroups]
    rw [if_neg (b64Char_ne_pad _), if_pos rfl, if_pos rfl]
    rw [b64Index_b64Char _ (by omega), b64Index_b64Char _ (by omega),
      b64Index_b64Char _ (by omega)]
    show some [a / 4 * 4 + (a % 4 * 16 + b / 16) / 16,
        (a % 4 * 16 + b / 16) % 16 * 16 + b % 16 * 4 / 4]
      = some [a, b]
    have h1 : a / 4 * 4 + (a % 4 * 16 + b / 16) / 16 = a := by omega
    have h2 : (a % 4 * 16 + b / 16) % 16 * 16 + b % 16 * 4 / 4 = b := by omega
    rw [h1, h2]
  | a :: b :: d :: rest, h => by
    have ha : a < 256 := h a (by simp)
    have hb : b < 256 := h b (by simp)
    have hd : d < 256 := h d (by simp)
    show atobGroups
        (b64Char (a / 4) :: b64Char (a % 4 * 16 + b / 16) :: b64Char (b % 16 * 4 + d / 64)
          :: b64Char (d % 64) :: b64EncodeGroups rest)
      = some (a :: b :: d :: rest)
    rw [atobGroups]
    rw [if_neg (b64Char_ne_pad _), if_neg (b64Char_ne_pad _)]
    rw [b64Index_b64Char _ (by omega), b64Index_b64Char _ (by omega),
      b64Index_b64Char _ (by omega), b64Index_b64Char _ (by omega)]
    rw [atobGroups_b64EncodeGroups rest (fun x hx => h x (by simp [hx]))]
    show some ((a / 4 * 4 + (a % 4 * 16 + b / 16) / 16)
        :: ((a % 4 * 16 + b / 16) % 16 * 16 + (b % 16 * 4 + d / 64) / 4)
        :: ((b % 16 * 4 + d / 64) % 4 * 64 + d % 64) :: rest)
      = some (a :: b :: d :: rest)
    have h1 : a / 4 * 4 + (a % 4 * 16 + b / 16) / 16 = a := by omega
    have h2 : (a % 4 * 16 + b / 16) % 16 * 16 + (b % 16 * 4 + d / 64) / 4 = b := by omega
    have h3 : (b % 16 * 4 + d / 64) % 4 * 64 + d % 64 = d := by omega
    rw [h1, h2, h3]

theorem char_toNat_valid (c : Char) :
    c.toNat < 55296 ∨ (57344 ≤ c.toNat ∧ c.toNat < 1114112) := by
  rcases c.valid with h | h
  · left
    exact h
  · right
    exact h

theorem char_toNat_lt (c : Char) : c.toNat < 1114112 := by
  rcases char_toNat_valid c with h | h <;> omega

theorem utf8Bytes_lt_256 (v : Nat) (hv : v < 1114112) :
    ∀ b ∈ utf8Bytes v, b < 256 := by
  intro b hb
  rw [utf8Bytes] at hb
  split_ifs at hb with h1 h2 h3
  · simp only [List.mem_singleton] at hb
    omega
  · simp only [List.mem_cons, List.not_mem_nil, or_false] at hb
    rcases hb with rfl | rfl <;> omega
  · simp only [List.mem_cons, List.not_mem_nil, or_false] at hb
    rcases hb with rfl | rfl | rfl <;> omega
  · simp only [List.mem_cons, List.not_mem_nil, or_false] at hb
    rcases hb with rfl | rfl | rfl | rfl <;> omega

theorem utf8Bytes_ne_nil (v : Nat) : utf8Bytes v ≠ [] := by
  rw [utf8Bytes]
  split_ifs <;> simp

theorem hexDigit_ascii : ∀ n, n < 16 → (hexDigit n).toNat < 128 := by decide

theorem hexVal_hexDigit : ∀ n, n < 16 → hexVal (hexDigit n) = some n := by decide

theorem isUriUnreserved_ascii (c : Char) (h : isUriUnreserved c = true) :
    c.toNat < 128 := by
  simp only [isUriUnreserved, Bool.or_eq_true, Bool.and_eq_true,
    decide_eq_true_eq, beq_iff_eq] at h
  rcases h with ((((((((⟨_, _⟩ | ⟨_, _⟩) | ⟨_, _⟩) | rfl) | rfl) | rfl) | rfl) | rfl) | rfl) |
    rfl | rfl | rfl
  all_goals first | omega | decide

theorem isUriUnreserved_ne_percent (c : Char) (h : isUriUnreserved c = true) :
    ¬ c = '%' := by
  intro hc
  subst hc
  simp [isUriUnreserved] at h

theorem escByte_ascii (b : Nat) (hb : b < 256) :
    ∀ c ∈ escByte b, c.toNat < 128 := by
  intro c hc
  simp only [escByte, List.mem_cons, List.not_mem_nil, or_false] at hc
  rcases hc with rfl | rfl | rfl
  · decide
  · exact hexDigit_ascii _ (by omega)
  · exact hexDigit_ascii _ (by omega)

theorem uriEncodeChar_ascii (c : Char) : ∀ x ∈ uriEncodeChar c, x.toNat < 128 := by
  intro x hx
  rw [uriEncodeChar] at hx
  split_ifs at hx with h
  · simp only [List.mem_singleton] at hx
    subst hx
    exact isUriUnreserved_ascii _ h
  · rw [List.mem_flatMap] at hx
    obtain ⟨b, hb, hxb⟩ := hx
    exact escByte_ascii b (utf8Bytes_lt_256 _ (char_toNat_lt c) b hb) x hxb

theorem encodeURIComponentModel_ascii (s : String) :
    ∀ c ∈ (encodeURIComponentModel s).data, c.toNat < 128 := by
  intro c hc
  have hc' : c ∈ s.data.flatMap uriEncodeChar := hc
  rw [List.mem_flatMap] at hc'
  obtain ⟨x, _, hcx⟩ := hc'
  exact uriEncodeChar_ascii x c hcx

theorem tokenizeEscapes_escBytes :
    ∀ (bs : List Nat) (rest : List Char), (∀ b ∈ bs, b < 256) →
      tokenizeEscapes (bs.flatMap escByte ++ rest)
        = (tokenizeEscapes rest).map (fun ts => bs.map UriTok.esc ++ ts)
  | [], rest, _ => by simp
  | b :: bs', rest, h => by
    have hb : b < 256 := h b (by simp)
    simp only [List.flatMap_cons, escByte, List.append_assoc, List.cons_append,
      List.nil_append]
    rw [tokenizeEscapes, if_pos rfl]
    rw [tokenizeEscAt]
    rw [hexVal_hexDigit _ (by omega), hexVal_hexDigit _ (by omega)]
    show (tokenizeEscapes (bs'.flatMap escByte ++ rest)).map
        (UriTok.esc (b / 16 * 16 + b % 16) :: ·) = _
    rw [tokenizeEscapes_escBytes bs' rest (fun x hx => h x (List.mem_cons_of_mem _ hx))]
    rw [Option.map_map]
    have hbb : b / 16 * 16 + b % 16 = b := by omega
    rw [hbb]
    rfl

theorem tokenizeEscapes_uriEncode :
    ∀ cs : List Char,
      tokenizeEscapes (cs.flatMap uriEncodeChar) = some (cs.flatMap uriTokOf)
  | [] => by
    show tokenizeEscapes [] = some []
    rw [tokenizeEscapes]
  | c :: cs' => by
    simp only [List.flatMap_cons]
    by_cases hc : isUriUnreserved c
    · rw [show uriEncodeChar c = [c] from by rw [uriEncodeChar, if_pos hc]]
      show tokenizeEscapes (c :: cs'.flatMap uriEncodeChar) = _
      rw [tokenizeEscapes, if_neg (isUriUnreserved_ne_percent c hc)]
      rw [tokenizeEscapes_uriEncode cs']
      rw [show uriTokOf c = [UriTok.raw c] from by rw [uriTokOf, if_pos hc]]
      rfl
    · rw [show uriEncodeChar c = (utf8Bytes c.toNat).flatMap escByte from by
        rw [uriEncodeChar, if_neg hc]]
      rw [tokenizeEscapes_escBytes _ _ (utf8Bytes_lt_256 _ (char_toNat_lt c))]
      rw [tokenizeEscapes_uriEncode cs']
      rw [show uriTokOf c = (utf8Bytes c.toNat).map UriTok.esc from by
        rw [uriTokOf, if_neg hc]]
      rfl

theorem utf8FromToks_esc1 (v : Nat) (hv : v < 128) (rest : List UriTok) :
    utf8FromToks (.esc v :: rest) = (utf8FromToks rest).map (Char.ofNat v :: ·) := by
  rw [utf8FromToks, if_pos hv]

theorem utf8FromToks_esc2 (v : Nat) (h1 : 128 ≤ v) (h2 : v < 2048)
    (rest : List UriTok) :
    utf8FromToks (.esc (192 + v / 64) :: .esc (128 + v % 64) :: rest)
      = (utf8FromToks rest).map (Char.ofNat v :: ·) := by
  rw [utf8FromToks]
  rw [if_neg (by omega), if_neg (by omega), if_pos (by omega : 192 + v / 64 < 224)]
  rw [utf8Cont1]
  have hcont : contByte (128 + v % 64) = true := by
    simp only [contByte, Bool.and_eq_true, decide_eq_true_eq]
    omega
  have hv' : (192 + v / 64) % 32 * 64 + (128 + v % 64) % 64 = v := by omega
  simp only [hcont, hv', decide_eq_true (by omega : 128 ≤ v), Bool.and_self, if_true]

theorem utf8FromToks_esc3 (v : Nat) (h1 : 2048 ≤ v) (h2 : v < 65536)
    (hs : ¬(55296 ≤ v ∧ v < 57344)) (rest : List UriTok) :
    utf8FromToks (.esc (224 + v / 4096) :: .esc (128 + v / 64 % 64)
        :: .esc (128 + v % 64) :: rest)
      = (utf8FromToks rest).map (Char.ofNat v :: ·) := by
  rw [utf8FromToks]
  rw [if_neg (by omega), if_neg (by omega), if_neg (by omega),
    if_pos (by omega : 224 + v / 4096 < 240)]
  rw [utf8Cont2]
  have hcont1 : contByte (128 + v / 64 % 64) = true := by
    simp only [contByte, Bool.and_eq_true, decide_eq_true_eq]
    omega
  have hcont2 : contByte (128 + v % 64) = true := by
    simp only [contByte, Bool.and_eq_true, decide_eq_true_eq]
    omega
  have hv' : (224 + v / 4096) % 16 * 4096 + (128 + v / 64 % 64) % 64 * 64
      + (128 + v % 64) % 64 = v := by omega
  have hsur : (decide (55296 ≤ v) && decide (v < 57344)) = false := by
    rcases Nat.lt_or_ge v 55296 with h | h
    · simp [decide_eq_false (by omega : ¬ 55296 ≤ v)]
    · have : ¬ v < 57344 := by
        intro hlt
        exact hs ⟨h, hlt⟩
      simp [decide_eq_false this]
  simp only [hcont1, hcont2, hv', decide_eq_true (by omega : 2048 ≤ v), hsur,
    Bool.not_false, Bool.and_self, Bool.and_true, if_true]

theorem utf8FromToks_esc4 (v : Nat) (h1 : 65536 ≤ v) (h2 : v < 1114112)
    (rest : List UriTok) :
    utf8FromToks (.esc (240 + v / 262144) :: .esc (128 + v / 4096 % 64)
        :: .esc (128 + v / 64 % 64) :: .esc (128 + v % 64) :: rest)
      = (utf8FromToks rest).map (Char.ofNat v :: ·) := by
  rw [utf8FromToks]
  rw [if_neg (by omega), if_neg (by omega), if_neg (by omega), if_neg (by omega),
    if_pos (by omega : 240 + v / 262144 < 248)]
  rw [utf8Cont3]
  have hcont1 : contByte (128 + v / 4096 % 64) = true := by
    simp only [contByte, Bool.and_eq_true, decide_eq_true_eq]
    omega
  have hcont2 : contByte (128 + v / 64 % 64) = true := by
    simp only [contByte, Bool.and_eq_true, decide_eq_true_eq]
    omega
  have hcont3 : contByte (128 + v % 64) = true := by
    simp only [contByte, Bool.and_eq_true, decide_eq_true_eq]
    omega
  have hv' : (240 + v / 262144) % 8 * 262144 + (128 + v / 4096 % 64) % 64 * 4096
      + (128 + v / 64 % 64) % 64 * 64 + (128 + v % 64) % 64 = v := by omega
  simp only [hcont1, hcont2, hcont3, hv', decide_eq_true (by omega : 65536 ≤ v),
    decide_eq_true (by omega : v < 1114112), Bool.and_self, Bool.and_true, if_true]

theorem utf8FromToks_tokOf (c : Char) (rest : List UriTok) :
    utf8FromToks (uriTokOf c ++ rest) = (utf8FromToks rest).map (c :: ·) := by
  rw [uriTokOf]
  by_cases hc : isUriUnreserved c
  · rw [if_pos hc]
    show utf8FromToks (.raw c :: rest) = _
    rw [utf8FromToks]
  · rw [if_neg hc]
    rw [utf8Bytes]
    by_cases h1 : c.toNat < 128
    · rw [if_pos h1]
      show utf8FromToks (.esc c.toNat :: rest) = _
      rw [utf8FromToks_esc1 _ h1, Char.ofNat_toNat]
    · rw [if_neg h1]
      by_cases h2 : c.toNat < 2048
      · rw [if_pos h2]
        show utf8FromToks (.esc (192 + c.toNat / 64) :: .esc (128 + c.toNat % 64)
            :: rest) = _
        rw [utf8FromToks_esc2 _ (by omega) h2, Char.ofNat_toNat]
      · rw [if_neg h2]
        by_cases h3 : c.toNat < 65536
        · rw [if_pos h3]
          show utf8FromToks (.esc (224 + c.toNat / 4096) :: .esc (128 + c.toNat / 64 % 64)
              :: .esc (128 + c.toNat % 64) :: rest) = _
          have hs : ¬(55296 ≤ c.toNat ∧ c.toNat < 57344) := by
            rcases char_toNat_valid c with h | h
            · omega
            · omega
          rw [utf8FromToks_esc3 _ (by omega) h3 hs, Char.ofNat_toNat]
        · rw [if_neg h3]
          show utf8FromToks (.esc (240 + c.toNat / 262144)
              :: .esc (128 + c.toNat / 4096 % 64) :: .esc (128 + c.toNat / 64 % 64)
              :: .esc (128 + c.toNat % 64) :: rest) = _
          rw [utf8FromToks_esc4 _ (by omega) (char_toNat_lt c), Char.ofNat_toNat]

theorem utf8FromToks_uriToks :
    ∀ cs : List Char, utf8FromToks (cs.flatMap uriTokOf) = some cs
  | [] => by
    show utf8FromToks [] = some []
    rw [utf8FromToks]
  | c :: cs' => by
    simp only [List.flatMap_cons]
    rw [utf8FromToks_tokOf, utf8FromToks_uriToks cs']
    rfl

/-- decodeURIComponent is a left inverse of encodeURIComponent. -/
theorem decodeURIComponent_encodeURIComponent (s : String) :
    decodeURIComponentModel (encodeURIComponentModel s) = some s := by
  rw [decodeURIComponentModel, encodeURIComponentModel]
  show (tokenizeEscapes (s.data.flatMap uriEncodeChar)).bind _ = _
  rw [tokenizeEscapes_uriEncode]
  show (utf8FromToks (s.data.flatMap uriTokOf)).map String.mk = some s
  rw [utf8FromToks_uriToks]
  rfl

/-- The storage `decode` undoes the storage `encode` on every string. -/
theorem decodeModel_encodeModel (v : String) : decodeModel (encodeModel v) = v := by
  have hbytes : ∀ b ∈ (encodeURIComponentModel v).data.map Char.toNat, b < 256 := by
    intro b hb
    rw [List.mem_map] at hb
    obtain ⟨c, hc, rfl⟩ := hb
    have := encodeURIComponentModel_ascii v c hc
    omega
  have h1 : atobModel (btoaModel (encodeURIComponentModel v))
      = some ((encodeURIComponentModel v).data.map Char.toNat) := by
    rw [btoaModel, atobModel]
    show atobGroups ((b64EncodeGroups _).filter _) = _
    rw [b64EncodeGroups_filter_ws]
    exact atobGroups_b64EncodeGroups _ hbytes
  rw [decodeModel, encodeModel, h1]
  have h2 : ((encodeURIComponentModel v).data.map Char.toNat).map Char.ofNat
      = (encodeURIComponentModel v).data := by
    rw [List.map_map]
    have hcongr : List.map (Char.ofNat ∘ Char.toNat) (encodeURIComponentModel v).data
        = List.map id (encodeURIComponentModel v).data :=
      List.map_congr_left (fun c _ => Char.ofNat_toNat c)
    rw [hcongr, List.map_id]
  show (match decodeURIComponentModel (String.mk
      (((encodeURIComponentModel v).data.map Char.toNat).map Char.ofNat)) with
    | none => ""
    | some s => s) = v
  rw [h2]
  rw [show String.mk (encodeURIComponentModel v).data = encodeURIComponentModel v
    from rfl]
  rw [decodeURIComponent_encodeURIComponent]

theorem uriEncodeChar_ne_nil (c : Char) : uriEncodeChar c ≠ [] := by
  rw [uriEncodeChar]
  split_ifs with h
  · simp
  · obtain ⟨b, bs, hbs⟩ : ∃ b bs, utf8Bytes c.toNat = b :: bs := by
      rcases hu : utf8Bytes c.toNat with _ | ⟨b, bs⟩
      · exact absurd hu (utf8Bytes_ne_nil _)
      · exact ⟨b, bs, rfl⟩
    rw [hbs]
    simp [escByte]

theorem b64EncodeGroups_ne_nil : ∀ bs : List Nat, bs ≠ [] → b64EncodeGroups bs ≠ []
  | [], h => absurd rfl h
  | [_], _ => by simp [b64EncodeGroups]
  | [_, _], _ => by simp [b64EncodeGroups]
  | _ :: _ :: _ :: _, _ => by simp [b64EncodeGroups]

/-- The storage `encode` of a nonempty string is nonempty. -/
theorem encodeModel_ne_empty (v : String) (hv : v ≠ "") : encodeModel v ≠ "" := by
  have hvd : v.data ≠ [] := by
    intro h
    exact hv (String.ext_iff.mpr (by simpa using h))
  have henc : (encodeURIComponentModel v).data ≠ [] := by
    show v.data.flatMap uriEncodeChar ≠ []
    rcases hd : v.data with _ | ⟨c, rest⟩
    · exact absurd hd hvd
    · simp only [List.flatMap_cons]
      intro happ
      exact uriEncodeChar_ne_nil c (List.append_eq_nil.mp happ).1
  have hbytes : (encodeURIComponentModel v).data.map Char.toNat ≠ [] := by
    simpa using henc
  intro hcontra
  apply b64EncodeGroups_ne_nil _ hbytes
  have hdata : (encodeModel v).data
      = b64EncodeGroups ((encodeURIComponentModel v).data.map Char.toNat) := rfl
  rw [hcontra] at hdata
  exact hdata.symm

/-- C8, counterexample: saving a credential pair with an empty `baseURL`
stores the empty string, which `loadAPIConfig` treats as falsy and maps to
`null` — the save/load round trip does not return the pair. -/
theorem C8_counterexample_empty_credential :
    loadAPIConfig (saveAPIConfig ⟨"", "key"⟩ ⟨none, none⟩) = none ∧
    (none : Option APIConfig) ≠ some ⟨"", "key"⟩ := by
  constructor
  · decide
  · decide

/-- C8 (amended): `decode` is a left inverse of `encode` on every string;
the save/load round trip returns the identical pair for every credential
pair with both fields nonempty (an empty field is stored as the empty
string, which load treats as missing and maps to `null`); a missing
storage key makes `loadAPIConfig` return `null`; and `decode` of an
undecodable value degrades to the empty string instead of throwing. -/
theorem C8_config_store_roundtrip :
    (∀ v : String, decodeModel (encodeModel v) = v) ∧
    (∀ (config : APIConfig) (st : StorageState),
        config.baseURL ≠ "" → config.apiKey ≠ "" →
        loadAPIConfig (saveAPIConfig config st) = some config) ∧
    (∀ st : StorageState, st.baseURLSlot = none ∨ st.apiKeySlot = none →
        loadAPIConfig st = none) ∧
    decodeModel "!!!" = "" := by
  refine ⟨decodeModel_encodeModel, ?_, ?_, by decide⟩
  · intro config st h1 h2
    obtain ⟨baseURL, apiKey⟩ := config
    rw [saveAPIConfig, loadAPIConfig]
    have e1 : (decide (encodeModel baseURL = "")) = false :=
      decide_eq_false (encodeModel_ne_empty _ h1)
    have e2 : (decide (encodeModel apiKey = "")) = false :=
      decide_eq_false (encodeModel_ne_empty _ h2)
    simp only [e1, e2, Bool.or_self, Bool.false_eq_true, if_false]
    rw [decodeModel_encodeModel, decodeModel_encodeModel]
  · intro st h
    obtain ⟨b, k⟩ := st
    rcases h with h | h
    · subst h
      rfl
    · subst h
      rcases b with _ | b <;> rfl

/-- C8, witness: a real credential pair survives the round trip, and a
missing key loads as `null`. -/
theorem C8_config_store_roundtrip_witness :
    loadAPIConfig (saveAPIConfig ⟨"http://localhost:8000", "secret-key"⟩ ⟨none, none⟩)
      = some ⟨"http://localhost:8000", "secret-key"⟩ ∧
    loadAPIConfig ⟨none, some "QQ=="⟩ = none := by
  have h := C8_config_store_roundtrip
  exact ⟨h.2.1 ⟨"http://localhost:8000", "secret-key"⟩ ⟨none, none⟩
      (by decide) (by decide),
    h.2.2.1 ⟨none, some "QQ=="⟩ (Or.inl rfl)⟩

end YTAdmin
